import Mathlib

/-!
Verification of the tower-defense simulation core (src/enemy.py, src/tower.py,
src/projectile.py, src/abilities.py, src/game.py) against its specification.

Modelling conventions:
* Python floats are embedded as rationals (ℚ); the Python builtin int(), which
  truncates toward zero, is embedded as pyInt.
* The Euclidean helper utils.distance (math.sqrt based) is kept abstract as an
  explicit function argument named dist: none of the verified claims depends on
  its analytic form, and every theorem below is proved for an arbitrary dist,
  hence in particular for the Euclidean one.
* In-place mutation of shared enemy objects is embedded by explicit state
  passing; where the source mutates other list elements through aliased
  references (healer enemies), the embedding applies the same field update to
  the corresponding list positions.
-/

/-- Truncation toward zero: embedding of the Python builtin int() on a float
(floor for nonnegative values, negated floor of the negation otherwise). -/
def pyInt (q : ℚ) : ℤ := if q < 0 then -(Int.floor (-q)) else Int.floor q

/-- StatusEffect from src/enemy.py: a timed modifier on an enemy. -/
structure StatusEffect where
  type : String
  duration : ℚ
  value : ℚ
  time : ℚ
deriving DecidableEq

/-- Enemy from src/enemy.py, with the fields set in Enemy.__init__. -/
structure Enemy where
  type : String
  max_health : ℚ
  health : ℚ
  base_speed : ℚ
  speed : ℚ
  reward : ℤ
  size : ℚ
  armor : ℚ
  flying : Bool
  immune_to_slow : Bool
  regen_rate : ℚ
  heal_range : ℚ
  heal_amount : ℚ
  heal_rate : ℚ
  heal_cooldown : ℚ
  max_shield : ℚ
  shield : ℚ
  shield_regen_rate : ℚ
  waypoints : List (ℚ × ℚ)
  waypoint_index : ℕ
  x : ℚ
  y : ℚ
  distance_traveled : ℚ
  alive : Bool
  reached_end : Bool
  status_effects : List StatusEffect
  frozen : Bool
deriving DecidableEq

/-- Enemy.take_damage from src/enemy.py lines 168-188: shield absorbs first
(clamped), the excess is reduced by the armor fraction, then health drops;
returns the updated enemy and the "killed" flag the method returns. -/
def Enemy.take_damage (self : Enemy) (damage : ℚ) : Enemy × Bool :=
  if 0 < self.shield then
    let shield_damage := min self.shield damage
    let s1 : Enemy := { self with shield := self.shield - shield_damage }
    let damage1 := damage - shield_damage
    if damage1 ≤ 0 then (s1, false)
    else
      let actual_damage := damage1 * (1 - s1.armor)
      let s2 : Enemy := { s1 with health := s1.health - actual_damage }
      if s2.health ≤ 0 then ({ s2 with alive := false }, true) else (s2, false)
  else
    let actual_damage := damage * (1 - self.armor)
    let s2 : Enemy := { self with health := self.health - actual_damage }
    if s2.health ≤ 0 then ({ s2 with alive := false }, true) else (s2, false)

/-- A shielded test enemy mirroring the "shielded" row of ENEMY_TYPES
(shield 50, no armor). -/
def enemyShielded : Enemy :=
  { type := "shielded", max_health := 90, health := 90, base_speed := 9/5,
    speed := 9/5, reward := 32, size := 10, armor := 0, flying := false,
    immune_to_slow := false, regen_rate := 0, heal_range := 0, heal_amount := 0,
    heal_rate := 0, heal_cooldown := 0, max_shield := 50, shield := 50,
    shield_regen_rate := 5, waypoints := [], waypoint_index := 0, x := 0, y := 0,
    distance_traveled := 0, alive := true, reached_end := false,
    status_effects := [], frozen := false }

/-- An armored test enemy with a small shield, used to exercise the
post-shield armor reduction (armor fraction 1/2). -/
def enemyArmored : Enemy :=
  { enemyShielded with
    type := "armored"
    armor := 1/2
    max_shield := 10
    shield := 10
    health := 120
    max_health := 120 }

/-- C1: for every enemy with shield s > 0 and every take_damage(d) call, the
shield absorbs min(s, d) and only the excess d - min(s, d) carries through;
the post-shield remainder r reduces health by exactly r * (1 - armor) (so when
the shield absorbs everything health is unchanged), and the armor and shield
fields themselves are not consumed as health. -/
theorem C1_take_damage_shield_then_armor (e : Enemy) (d : ℚ) (hs : 0 < e.shield) :
    (e.take_damage d).1.shield = e.shield - min e.shield d ∧
    (e.take_damage d).1.health = e.health - (d - min e.shield d) * (1 - e.armor) ∧
    (e.take_damage d).1.armor = e.armor := by
  have hmin : min e.shield d ≤ d := min_le_right _ _
  unfold Enemy.take_damage
  rw [if_pos hs]
  by_cases hz : d - min e.shield d ≤ 0
  · have hz0 : d - min e.shield d = 0 := le_antisymm hz (by linarith)
    simp only [hz0, if_pos (le_refl (0 : ℚ)), zero_mul, sub_zero]
    simp [hz0]
  · rw [if_neg hz]
    by_cases hd : e.health - (d - min e.shield d) * (1 - e.armor) ≤ 0
    · simp [hd]
    · simp [hd]

/-- Witness for C1 at the spec examples: shield 50, armor 0, damage 30 gives
shield 20 and unchanged health; armor 1/2 with post-shield damage 40 (damage 50
against shield 10) drops health by exactly 20. -/
theorem C1_witness :
    ((0 : ℚ) < enemyShielded.shield ∧
      (enemyShielded.take_damage 30).1.shield = 20 ∧
      (enemyShielded.take_damage 30).1.health = 90) ∧
    ((0 : ℚ) < enemyArmored.shield ∧
      (enemyArmored.take_damage 50).1.health = 100) := by
  have h1 := C1_take_damage_shield_then_armor enemyShielded 30 (by norm_num [enemyShielded])
  have h2 := C1_take_damage_shield_then_armor enemyArmored 50 (by norm_num [enemyArmored])
  refine ⟨⟨by norm_num [enemyShielded], ?_, ?_⟩, by norm_num [enemyArmored], ?_⟩
  · rw [h1.1]; norm_num [enemyShielded, min_def]
  · rw [h1.2.1]; norm_num [enemyShielded, min_def]
  · rw [h2.2.1]; norm_num [enemyArmored, min_def]

/-- One iteration of the status-effect loop in Enemy._update_status_effects:
advance the effect timer, drop it when expired, otherwise apply its per-tick
consequence to the enemy. -/
def statusStep (dt : ℚ) (acc : Enemy × List StatusEffect) (eff : StatusEffect) :
    Enemy × List StatusEffect :=
  let s := acc.1
  let eff1 : StatusEffect := { eff with time := eff.time + dt }
  if eff1.time ≥ eff1.duration then (s, acc.2)
  else
    let s1 : Enemy :=
      if eff1.type = "slow" ∧ ¬ s.immune_to_slow then
        { s with speed := s.speed * (1 - eff1.value) }
      else if eff1.type = "poison" then
        { s with health := s.health - eff1.value * dt }
      else if eff1.type = "burn" then
        { s with health := s.health - eff1.value * dt }
      else if eff1.type = "freeze" then
        { s with
          frozen := true
          speed := 0 }
      else s
    (s1, acc.2 ++ [eff1])

/-- Enemy._update_status_effects from src/enemy.py lines 120-141: reset speed
and frozen, run every status effect (removing expired ones), then mark the
enemy dead when health dropped to 0 or below. -/
def Enemy.update_status_effects (dt : ℚ) (self : Enemy) : Enemy :=
  let s0 : Enemy :=
    { self with
      speed := self.base_speed
      frozen := false }
  let r := self.status_effects.foldl (statusStep dt) (s0, [])
  let s : Enemy := { r.1 with status_effects := r.2 }
  if s.health ≤ 0 then { s with alive := false } else s

/-- Enemy.apply_status_effect from src/enemy.py lines 159-166: drop any
existing effect of the same kind, then append the new one. -/
def Enemy.apply_status_effect (self : Enemy) (effect_type : String)
    (duration : ℚ) (value : ℚ) : Enemy :=
  { self with
    status_effects :=
      (self.status_effects.filter (fun e => e.type != effect_type)) ++
        [⟨effect_type, duration, value, 0⟩] }

/-- The effect of one heal pulse of a healer enemy on another enemy, from
Enemy._heal_nearby_enemies (src/enemy.py lines 151-157): a living enemy within
heal_range that is below max health is topped up by heal_amount (clamped). -/
def Enemy.healPulse (dist : ℚ × ℚ → ℚ × ℚ → ℚ) (healer : Enemy) (e : Enemy) : Enemy :=
  if e.alive = false then e
  else if dist (healer.x, healer.y) (e.x, e.y) ≤ healer.heal_range then
    if e.health < e.max_health then
      { e with health := min e.max_health (e.health + healer.heal_amount) }
    else e
  else e

/-- Enemy.update from src/enemy.py lines 74-118: early exit when dead or
arrived, then status effects, regeneration, shield regeneration, the healer
cooldown bookkeeping (the returned flag tells the caller whether a heal pulse
fires this tick, to be applied to the other live enemies), then movement along
the waypoints. allNonempty embeds the truthiness test on the all_enemies
argument. -/
def Enemy.update (dist : ℚ × ℚ → ℚ × ℚ → ℚ) (dt : ℚ) (self : Enemy)
    (allNonempty : Bool) : Enemy × Bool :=
  if ¬ self.alive ∨ self.reached_end then (self, false)
  else
    let s1 := self.update_status_effects dt
    let s2 : Enemy :=
      if 0 < s1.regen_rate ∧ s1.health < s1.max_health then
        { s1 with health := min s1.max_health (s1.health + s1.regen_rate * dt) }
      else s1
    let s3 : Enemy :=
      if s2.shield < s2.max_shield then
        { s2 with shield := min s2.max_shield (s2.shield + s2.shield_regen_rate * dt) }
      else s2
    let hp : Enemy × Bool :=
      if 0 < s3.heal_range ∧ allNonempty then
        let s4 : Enemy := { s3 with heal_cooldown := s3.heal_cooldown - dt }
        if 0 < s4.heal_cooldown then (s4, false)
        else ({ s4 with heal_cooldown := 1 / s4.heal_rate }, true)
      else (s3, false)
    let s5 := hp.1
    let pulse := hp.2
    if s5.frozen then (s5, pulse)
    else if s5.waypoints.length ≤ s5.waypoint_index then
      ({ s5 with reached_end := true }, pulse)
    else
      let tgt := s5.waypoints.getD s5.waypoint_index (0, 0)
      let d := dist (s5.x, s5.y) tgt
      if d < s5.speed then
        ({ s5 with
            x := tgt.1
            y := tgt.2
            waypoint_index := s5.waypoint_index + 1
            distance_traveled := s5.distance_traveled + d }, pulse)
      else
        let move_x := (tgt.1 - s5.x) / d * s5.speed
        let move_y := (tgt.2 - s5.y) / d * s5.speed
        ({ s5 with
            x := s5.x + move_x
            y := s5.y + move_y
            distance_traveled := s5.distance_traveled + s5.speed }, pulse)

/-- A dead test enemy: health already drained to 0, shield gone, alive flag
cleared (the state in which the source removes the enemy from the list). -/
def enemyDead : Enemy :=
  { enemyShielded with
    alive := false
    health := 0
    shield := 0
    max_shield := 0 }

/-- C2 counterexample: take_damage on an enemy whose alive flag is already
false is NOT a no-op — the source method never checks alive, so health keeps
dropping (and the kill flag is returned again). -/
theorem C2_counterexample :
    enemyDead.alive = false ∧
    (enemyDead.take_damage 10).1.health ≠ enemyDead.health ∧
    (enemyDead.take_damage 10).2 = true := by
  refine ⟨rfl, ?_, ?_⟩ <;> norm_num [enemyDead, enemyShielded, Enemy.take_damage]

/-- C2 amended: once alive == false it never becomes true again — take_damage,
Enemy.update, heal pulses and apply_status_effect all preserve a cleared alive
flag (and Enemy.update on a dead enemy is a full no-op) — but take_damage on a
dead enemy is not a no-op: it still runs the shield/armor/health arithmetic,
as the counterexample shows. -/
theorem C2_alive_never_returns (dist : ℚ × ℚ → ℚ × ℚ → ℚ) (e h : Enemy) (d dt : ℚ)
    (b : Bool) (ty : String) (dur v : ℚ) :
    ((e.take_damage d).1.alive = true → e.alive = true) ∧
    (e.alive = false → (e.take_damage d).1.alive = false) ∧
    (e.alive = false → Enemy.update dist dt e b = (e, false)) ∧
    (Enemy.healPulse dist h e).alive = e.alive ∧
    (e.apply_status_effect ty dur v).alive = e.alive := by
  refine ⟨?_, ?_, ?_, ?_, ?_⟩
  · simp only [Enemy.take_damage]
    split_ifs <;> simp_all
  · intro ha
    simp only [Enemy.take_damage]
    split_ifs <;> simp_all
  · intro ha
    unfold Enemy.update
    simp [ha]
  · unfold Enemy.healPulse
    split_ifs <;> simp_all
  · simp [Enemy.apply_status_effect]

/-- Witness for C2 amended, at a concrete dead enemy: the alive flag stays
false through take_damage and update is a no-op there. -/
theorem C2_witness :
    enemyDead.alive = false ∧
    (enemyDead.take_damage 10).1.alive = false ∧
    Enemy.update (fun _ _ => 0) 1 enemyDead true = (enemyDead, false) := by
  have h := C2_alive_never_returns (fun _ _ => 0) enemyDead enemyDead 10 1 true "slow" 1 0
  exact ⟨rfl, h.2.1 rfl, h.2.2.1 rfl⟩

/-- MAX_UPGRADE_LEVEL from src/constants.py. -/
def MAX_UPGRADE_LEVEL : ℕ := 3

/-- UPGRADE_COST_MULTIPLIER from src/constants.py (1.5). -/
def UPGRADE_COST_MULTIPLIER : ℚ := 3/2

/-- Tower from src/tower.py, restricted to the fields the upgrade/sell economy
reads and writes (position, colors and the projectile list are irrelevant to
those methods). -/
structure Tower where
  type : String
  cost : ℤ
  damage : ℤ
  range : ℤ
  fire_rate : ℚ
  projectile_speed : ℚ
  level : ℕ
  total_cost : ℤ
  fire_cooldown : ℚ
  base_damage : Option ℤ
deriving DecidableEq

/-- Tower stats rows of TOWER_TYPES from src/constants.py (the numeric fields;
missing keys carry the .get defaults used by the tower classes). -/
structure TowerStats where
  cost : ℤ
  damage : ℤ
  range : ℤ
  fire_rate : ℚ
  projectile_speed : ℚ := 8
  splash_radius : ℚ := 0
  buff_range : ℚ := 0
  damage_buff : ℚ := 1
deriving DecidableEq

/-- TOWER_TYPES from src/constants.py. -/
def TOWER_TYPES : String → Option TowerStats
  | "basic" => some { cost := 100, damage := 10, range := 120, fire_rate := 1 }
  | "sniper" => some { cost := 200, damage := 50, range := 250, fire_rate := 1/2, projectile_speed := 15 }
  | "rapid" => some { cost := 150, damage := 5, range := 100, fire_rate := 3, projectile_speed := 10 }
  | "splash" => some { cost := 250, damage := 15, range := 110, fire_rate := 4/5, projectile_speed := 6, splash_radius := 60 }
  | "laser" => some { cost := 300, damage := 8, range := 150, fire_rate := 10 }
  | "ice" => some { cost := 225, damage := 8, range := 130, fire_rate := 6/5, projectile_speed := 9 }
  | "poison" => some { cost := 275, damage := 5, range := 120, fire_rate := 7/10, projectile_speed := 7 }
  | "electric" => some { cost := 350, damage := 20, range := 140, fire_rate := 3/2 }
  | "artillery" => some { cost := 400, damage := 80, range := 200, fire_rate := 3/10, projectile_speed := 10, splash_radius := 80 }
  | "support" => some { cost := 180, damage := 0, range := 160, fire_rate := 0, buff_range := 160, damage_buff := 5/4 }
  | "flame" => some { cost := 280, damage := 12, range := 100, fire_rate := 2 }
  | _ => none

/-- Tower.__init__ from src/tower.py: stats copied from the table, level 1,
total_cost starts at the purchase cost. -/
def Tower.init (ty : String) (st : TowerStats) : Tower :=
  { type := ty, cost := st.cost, damage := st.damage, range := st.range,
    fire_rate := st.fire_rate, projectile_speed := st.projectile_speed,
    level := 1, total_cost := st.cost, fire_cooldown := 0, base_damage := none }

/-- Tower.get_upgrade_cost from src/tower.py lines 240-243: -1 at the level
cap, otherwise int(cost * 1.5 ** level). -/
def Tower.get_upgrade_cost (self : Tower) : ℤ :=
  if MAX_UPGRADE_LEVEL ≤ self.level then -1
  else pyInt ((self.cost : ℚ) * UPGRADE_COST_MULTIPLIER ^ self.level)

/-- Tower.upgrade from src/tower.py lines 245-254: reject at the cap, else
increment the level FIRST, then add get_upgrade_cost() (now computed at the
new level) to total_cost, then apply the stat multipliers. -/
def Tower.upgrade (self : Tower) : Tower × Bool :=
  if MAX_UPGRADE_LEVEL ≤ self.level then (self, false)
  else
    let s1 : Tower := { self with level := self.level + 1 }
    let s2 : Tower := { s1 with total_cost := s1.total_cost + s1.get_upgrade_cost }
    let s3 : Tower :=
      { s2 with
        damage := pyInt ((s2.damage : ℚ) * (3/2))
        range := pyInt ((s2.range : ℚ) * (11/10))
        fire_rate := s2.fire_rate * (6/5) }
    (s3, true)

/-- Tower.get_sell_value from src/tower.py lines 256-257: int(total_cost * 0.7). -/
def Tower.get_sell_value (self : Tower) : ℤ := pyInt ((self.total_cost : ℚ) * (7/10))

/-- The upgrade branch of Game.handle_game_click (src/game.py lines 169-181):
read the upgrade cost BEFORE upgrading, check affordability, upgrade, then
deduct that pre-increment cost from the money. -/
def Game.upgradeClick (money : ℤ) (t : Tower) : ℤ × Tower :=
  let upgrade_cost := t.get_upgrade_cost
  if 0 < upgrade_cost ∧ upgrade_cost ≤ money then
    let r := t.upgrade
    if r.2 then (money - upgrade_cost, r.1) else (money, t)
  else (money, t)

/-- The basic tower (cost 100) freshly placed. -/
def basicTower : Tower := Tower.init "basic" { cost := 100, damage := 10, range := 120, fire_rate := 1 }

/-- C3 demonstration at the failing input: upgrading the basic tower once with
1000 money deducts 150 = int(100 * 1.5 ^ 1) but records 225 = int(100 * 1.5 ^ 2)
in total_cost (325 instead of the 250 actually invested); the second upgrade
deducts 225 but adds the -1 level-cap sentinel to total_cost (324 instead of
475); a third click is rejected at level 3 and changes nothing. The sell value
0.7 * total_cost is therefore computed from the wrong total. -/
theorem C3_total_cost_mismatch :
    (Game.upgradeClick 1000 basicTower).1 = 850 ∧
    (Game.upgradeClick 1000 basicTower).2.total_cost = 325 ∧
    basicTower.total_cost + (1000 - 850) = 250 ∧
    (Game.upgradeClick 850 (Game.upgradeClick 1000 basicTower).2).1 = 625 ∧
    (Game.upgradeClick 850 (Game.upgradeClick 1000 basicTower).2).2.total_cost = 324 ∧
    basicTower.total_cost + (1000 - 625) = 475 ∧
    (Game.upgradeClick 850 (Game.upgradeClick 1000 basicTower).2).2.level = 3 ∧
    Game.upgradeClick 625 (Game.upgradeClick 850 (Game.upgradeClick 1000 basicTower).2).2 =
      (625, (Game.upgradeClick 850 (Game.upgradeClick 1000 basicTower).2).2) ∧
    (Game.upgradeClick 850 (Game.upgradeClick 1000 basicTower).2).2.get_sell_value = 226 := by
  norm_num [Game.upgradeClick, basicTower, Tower.init, Tower.upgrade,
    Tower.get_upgrade_cost, Tower.get_sell_value, pyInt, MAX_UPGRADE_LEVEL,
    UPGRADE_COST_MULTIPLIER]

/-- Enemy.is_boss from src/enemy.py lines 266-268. -/
def Enemy.is_boss (self : Enemy) : Bool :=
  self.type == "boss" || self.type == "mega_boss"

/-- Enemy stat rows of ENEMY_TYPES from src/constants.py (numeric fields; the
defaults embed the .get fallbacks used in Enemy.__init__). -/
structure EnemyStats where
  health : ℚ
  speed : ℚ
  reward : ℚ
  size : ℚ
  armor : ℚ := 0
  flying : Bool := false
  immune_to_slow : Bool := false
  regen_rate : ℚ := 0
  heal_range : ℚ := 0
  heal_amount : ℚ := 0
  heal_rate : ℚ := 0
  shield : ℚ := 0
deriving DecidableEq

/-- ENEMY_TYPES from src/constants.py. -/
def ENEMY_TYPES : String → Option EnemyStats
  | "basic" => some { health := 50, speed := 2, reward := 10, size := 8 }
  | "fast" => some { health := 30, speed := 4, reward := 15, size := 7 }
  | "tank" => some { health := 200, speed := 1, reward := 30, size := 12 }
  | "swarm" => some { health := 20, speed := 3, reward := 5, size := 6 }
  | "boss" => some { health := 500, speed := 4/5, reward := 100, size := 16 }
  | "armored" => some { health := 120, speed := 3/2, reward := 25, size := 10, armor := 1/2 }
  | "healer" => some { health := 80, speed := 9/5, reward := 35, size := 9, heal_range := 80, heal_amount := 2, heal_rate := 1 }
  | "speedy" => some { health := 40, speed := 5, reward := 20, size := 7 }
  | "regenerating" => some { health := 100, speed := 2, reward := 28, size := 9, regen_rate := 3/2 }
  | "flying" => some { health := 60, speed := 7/2, reward := 22, size := 8, flying := true }
  | "ghost" => some { health := 70, speed := 5/2, reward := 30, size := 9, immune_to_slow := true }
  | "shielded" => some { health := 90, speed := 9/5, reward := 32, size := 10, shield := 50 }
  | "mega_boss" => some { health := 2000, speed := 3/5, reward := 500, size := 20, armor := 3/10 }
  | _ => none

/-- Enemy.__init__ from src/enemy.py lines 28-72: wave and difficulty scaling
of health, speed and reward, shield setup, spawn at the first waypoint. -/
def Enemy.init (enemy_type : String) (st : EnemyStats) (waypoints : List (ℚ × ℚ))
    (wave_number : ℕ) (diffHealth diffSpeed : ℚ) : Enemy :=
  let wave_mult : ℚ := 1 + ((wave_number : ℚ) - 1) * (15/100)
  let mh : ℤ := pyInt (st.health * wave_mult * diffHealth)
  { type := enemy_type
    max_health := (mh : ℚ)
    health := (mh : ℚ)
    base_speed := st.speed * diffSpeed
    speed := st.speed * diffSpeed
    reward := pyInt (st.reward * (1 + ((wave_number : ℚ) - 1) * (1/10)))
    size := st.size
    armor := st.armor
    flying := st.flying
    immune_to_slow := st.immune_to_slow
    regen_rate := st.regen_rate
    heal_range := st.heal_range
    heal_amount := st.heal_amount
    heal_rate := st.heal_rate
    heal_cooldown := 0
    max_shield := st.shield
    shield := st.shield
    shield_regen_rate := if 0 < st.shield then 5 else 0
    waypoints := waypoints
    waypoint_index := 0
    x := (waypoints.headD (0, 0)).1
    y := (waypoints.headD (0, 0)).2
    distance_traveled := 0
    alive := true
    reached_end := false
    status_effects := []
    frozen := false }

/-- WAVES from src/constants.py: the 25 wave composition tables, in insertion
order of the Python dict literals. -/
def WAVES : List (List (String × ℕ)) :=
  [ [("basic", 10)],
    [("basic", 15), ("fast", 5)],
    [("basic", 10), ("fast", 10)],
    [("basic", 20), ("tank", 2)],
    [("fast", 15), ("tank", 3), ("swarm", 5)],
    [("basic", 25), ("fast", 15), ("swarm", 10), ("armored", 2)],
    [("tank", 5), ("fast", 20), ("healer", 1)],
    [("basic", 30), ("fast", 20), ("tank", 5), ("speedy", 8)],
    [("swarm", 30), ("tank", 8), ("regenerating", 3)],
    [("boss", 1), ("basic", 20), ("fast", 20), ("armored", 5)],
    [("basic", 40), ("fast", 30), ("tank", 10), ("swarm", 20), ("flying", 10)],
    [("healer", 3), ("tank", 15), ("armored", 8), ("regenerating", 5)],
    [("swarm", 50), ("speedy", 20), ("fast", 30), ("ghost", 5)],
    [("tank", 20), ("armored", 15), ("shielded", 10), ("boss", 1)],
    [("basic", 50), ("fast", 40), ("tank", 20), ("flying", 15), ("healer", 3)],
    [("swarm", 60), ("speedy", 30), ("ghost", 10), ("regenerating", 10)],
    [("tank", 25), ("armored", 20), ("shielded", 15), ("boss", 2)],
    [("flying", 30), ("fast", 50), ("speedy", 25), ("healer", 5)],
    [("basic", 80), ("tank", 30), ("armored", 25), ("regenerating", 15)],
    [("mega_boss", 1), ("boss", 2), ("healer", 5), ("armored", 20)],
    [("swarm", 100), ("speedy", 50), ("flying", 40), ("ghost", 20)],
    [("tank", 40), ("armored", 35), ("shielded", 25), ("regenerating", 20)],
    [("boss", 3), ("mega_boss", 1), ("healer", 8), ("armored", 30)],
    [("fast", 80), ("speedy", 60), ("flying", 50), ("ghost", 30)],
    [("mega_boss", 2), ("boss", 4), ("armored", 40), ("shielded", 30)] ]

/-- WaveManager from src/enemy.py lines 271-283 (difficulty multipliers split
into their two fields). -/
structure WaveManager where
  waypoints : List (ℚ × ℚ)
  diffHealth : ℚ
  diffSpeed : ℚ
  current_wave : ℕ
  enemies : List Enemy
  enemies_to_spawn : List (String × ℚ)
  wave_active : Bool
  wave_spawn_timer : ℚ
  time_between_enemies : ℚ
deriving DecidableEq

/-- WaveManager.__init__ from src/enemy.py lines 274-283. -/
def WaveManager.init (waypoints : List (ℚ × ℚ)) (dh ds : ℚ) : WaveManager :=
  { waypoints := waypoints, diffHealth := dh, diffSpeed := ds,
    current_wave := 0, enemies := [], enemies_to_spawn := [],
    wave_active := false, wave_spawn_timer := 0, time_between_enemies := 1/2 }

/-- The expansion loop of WaveManager.start_wave (src/enemy.py lines 297-303):
one (kind, spawn_time) entry per enemy, spawn_time increasing by
time_between_enemies across the whole table. -/
def expandStep (tbe : ℚ) (acc : List (String × ℚ) × ℚ) (p : String × ℕ) :
    List (String × ℚ) × ℚ :=
  (acc.1 ++ (List.range p.2).map (fun (i : ℕ) => (p.1, acc.2 + (i : ℚ) * tbe)),
   acc.2 + (p.2 : ℚ) * tbe)

def expandWave (tbe : ℚ) (wave_data : List (String × ℕ)) : List (String × ℚ) :=
  (wave_data.foldl (expandStep tbe) ([], 0)).1

/-- WaveManager.start_wave from src/enemy.py lines 285-308: no-op while a wave
is active; otherwise bump the counter, expand the wave table, shuffle
(random.shuffle is embedded as an arbitrary list permutation passed in), and
reassign the offsets as index * time_between_enemies. -/
def WaveManager.start_wave (shuffle : List (String × ℚ) → List (String × ℚ))
    (wm : WaveManager) : WaveManager :=
  if wm.wave_active then wm
  else
    let cw := wm.current_wave + 1
    let wave_index := min (cw - 1) (WAVES.length - 1)
    let wave_data := WAVES.getD wave_index []
    let shuffled := shuffle (expandWave wm.time_between_enemies wave_data)
    { wm with
      current_wave := cw
      wave_active := true
      wave_spawn_timer := 0
      enemies_to_spawn :=
        shuffled.enum.map (fun p => (p.2.1, (p.1 : ℚ) * wm.time_between_enemies)) }

/-- The spawning while-loop of WaveManager.update (src/enemy.py lines
324-328): pop queue entries whose offset has elapsed and append a freshly
constructed enemy for each. An unknown kind would raise KeyError in the
source; the embedding skips it (unreachable for kinds of WAVES, all of which
are in ENEMY_TYPES). -/
def spawnGo (waypoints : List (ℚ × ℚ)) (cw : ℕ) (dh ds : ℚ) (timer : ℚ) :
    List (String × ℚ) → List Enemy → List (String × ℚ) × List Enemy
  | [], acc => ([], acc)
  | (ty, off) :: rest, acc =>
    if off ≤ timer then
      spawnGo waypoints cw dh ds timer rest
        (acc ++ ((ENEMY_TYPES ty).map (fun st => Enemy.init ty st waypoints cw dh ds)).toList)
    else ((ty, off) :: rest, acc)

/-- The spawn phase of WaveManager.update (src/enemy.py lines 321-328): when a
wave is active and entries remain, advance the spawn timer and run the
spawning loop. -/
def WaveManager.spawnPhase (dt : ℚ) (wm : WaveManager) : WaveManager :=
  if wm.wave_active ∧ wm.enemies_to_spawn ≠ [] then
    let timer := wm.wave_spawn_timer + dt
    let r := spawnGo wm.waypoints wm.current_wave wm.diffHealth wm.diffSpeed timer
      wm.enemies_to_spawn wm.enemies
    { wm with wave_spawn_timer := timer, enemies_to_spawn := r.1, enemies := r.2 }
  else wm

/-- The per-enemy loop of WaveManager.update (src/enemy.py lines 330-340):
iterate over a snapshot of the list, update each enemy (heal pulses of healer
enemies are applied to every other live list element: the already-kept ones
via the map, the not-yet-processed ones via the accumulated function f, which
embeds the in-place mutation of the shared enemy objects), remove the dead and
the arrived, and count kills, arrivals and boss kills. -/
def processEnemies (dist : ℚ × ℚ → ℚ × ℚ → ℚ) (dt : ℚ) :
    List Enemy → List Enemy → (Enemy → Enemy) → List Enemy × ℕ × ℕ × ℕ
  | [], processed, _ => (processed, 0, 0, 0)
  | e :: rest, processed, f =>
    let e0 := f e
    let r := Enemy.update dist dt e0 true
    let e1 := r.1
    let pulse := r.2
    let processed1 := if pulse then processed.map (Enemy.healPulse dist e0) else processed
    let f1 : Enemy → Enemy := if pulse then fun x => Enemy.healPulse dist e0 (f x) else f
    if e1.alive = false then
      let pr := processEnemies dist dt rest processed1 f1
      (pr.1, pr.2.1 + 1, pr.2.2.1, pr.2.2.2 + (if e1.is_boss then 1 else 0))
    else if e1.reached_end then
      let pr := processEnemies dist dt rest processed1 f1
      (pr.1, pr.2.1, pr.2.2.1 + 1, pr.2.2.2)
    else
      processEnemies dist dt rest (processed1 ++ [e1]) f1

/-- WaveManager.update from src/enemy.py lines 310-345: spawn phase, per-enemy
processing with removal of dead/arrived enemies, then deactivate the wave when
both the spawn queue and the enemy list are empty. Returns the updated manager
and (enemies_killed, enemies_reached_end, boss_kills). -/
def WaveManager.update (dist : ℚ × ℚ → ℚ × ℚ → ℚ) (dt : ℚ) (wm : WaveManager) :
    WaveManager × ℕ × ℕ × ℕ :=
  let wm1 := wm.spawnPhase dt
  let pr := processEnemies dist dt wm1.enemies [] id
  let wm2 : WaveManager := { wm1 with enemies := pr.1 }
  let wm3 : WaveManager :=
    if wm2.wave_active ∧ wm2.enemies_to_spawn = [] ∧ wm2.enemies = [] then
      { wm2 with wave_active := false }
    else wm2
  (wm3, pr.2.1, pr.2.2.1, pr.2.2.2)

/-- WaveManager.is_wave_complete from src/enemy.py lines 352-354. -/
def WaveManager.is_wave_complete (wm : WaveManager) : Bool := ! wm.wave_active

/-- The kill-reward loop of Game.update (src/game.py lines 298-315): only
entered when enemies_killed > 0; scans the wave manager's enemy list for
enemies with alive == False and pays int(reward * money multiplier) into both
money and score for each. -/
def Game.killRewardPhase (enemies_killed : ℕ) (moneyMult : ℚ) (money score : ℤ)
    (enemies : List Enemy) : ℤ × ℤ :=
  if 0 < enemies_killed then
    enemies.foldl
      (fun ms e =>
        if e.alive = false then
          (ms.1 + pyInt ((e.reward : ℚ) * moneyMult),
           ms.2 + pyInt ((e.reward : ℚ) * moneyMult))
        else ms)
      (money, score)
  else (money, score)

/-- A heal pulse only tops up health; it never changes the alive flag. -/
theorem healPulse_alive (dist : ℚ × ℚ → ℚ × ℚ → ℚ) (h e : Enemy) :
    (Enemy.healPulse dist h e).alive = e.alive := by
  unfold Enemy.healPulse
  split_ifs <;> rfl

/-- Every enemy kept by the per-enemy removal loop has alive = true: the loop
removes each enemy that is dead right after its own update, and the only
cross-enemy mutation (heal pulses) preserves the alive flag. -/
theorem processEnemies_alive (dist : ℚ × ℚ → ℚ × ℚ → ℚ) (dt : ℚ) :
    ∀ (pending processed : List Enemy) (f : Enemy → Enemy),
      (∀ e ∈ processed, e.alive = true) →
      ∀ e ∈ (processEnemies dist dt pending processed f).1, e.alive = true := by
  intro pending
  induction pending with
  | nil =>
    intro processed f hp e he
    simp only [processEnemies] at he
    exact hp e he
  | cons a rest ih =>
    intro processed f hp e he
    simp only [processEnemies] at he
    split_ifs at he with h1 h2 h3 h4 h5 h6 <;> try dsimp only at he
    all_goals
      first
      | · refine ih _ _ ?_ e he
          intro x hx
          rcases List.mem_map.1 hx with ⟨y, hy, rfl⟩
          rw [healPulse_alive]
          exact hp y hy
      | · refine ih _ _ ?_ e he
          exact hp
      | · refine ih _ _ ?_ e he
          intro x hx
          rcases List.mem_append.1 hx with hx2 | hx2
          · rcases List.mem_map.1 hx2 with ⟨y, hy, rfl⟩
            rw [healPulse_alive]
            exact hp y hy
          · rw [List.mem_singleton.1 hx2]
            simp only [Bool.not_eq_false] at h1
            exact h1
      | · refine ih _ _ ?_ e he
          intro x hx
          rcases List.mem_append.1 hx with hx2 | hx2
          · exact hp x hx2
          · rw [List.mem_singleton.1 hx2]
            simp only [Bool.not_eq_false] at h1
            exact h1

/-- The reward fold of the kill-reward loop is the identity when no enemy in
the list is dead. -/
theorem killReward_foldl_id (mult : ℚ) :
    ∀ (l : List Enemy), (∀ e ∈ l, e.alive = true) → ∀ (ms : ℤ × ℤ),
      l.foldl
        (fun ms e =>
          if e.alive = false then
            (ms.1 + pyInt ((e.reward : ℚ) * mult),
             ms.2 + pyInt ((e.reward : ℚ) * mult))
          else ms) ms = ms := by
  intro l
  induction l with
  | nil => intro _ ms; rfl
  | cons a rest ih =>
    intro h ms
    have ha : a.alive = true := h a (List.mem_cons_self a rest)
    simp only [List.foldl_cons, ha]
    simp only [Bool.true_eq_false, if_false]
    exact ih (fun e he => h e (List.mem_cons_of_mem a he)) ms

/-- C4: after WaveManager.update returns, every enemy remaining in the list
has alive = true (the dead and the arrived were removed inside the call), so
the kill-reward loop of Game.update, which scans that list for enemies with
alive = false, finds none and leaves money and score unchanged: enemy kills
never increase the player money or score. -/
theorem C4_kills_never_rewarded (dist : ℚ × ℚ → ℚ × ℚ → ℚ) (dt : ℚ)
    (wm : WaveManager) (mult : ℚ) (money score : ℤ) :
    (∀ e ∈ ((WaveManager.update dist dt wm).1).enemies, e.alive = true) ∧
    Game.killRewardPhase (WaveManager.update dist dt wm).2.1 mult money score
      ((WaveManager.update dist dt wm).1).enemies = (money, score) := by
  have halive : ∀ e ∈ ((WaveManager.update dist dt wm).1).enemies, e.alive = true := by
    intro e he
    simp only [WaveManager.update] at he
    split_ifs at he with h1 <;> try dsimp only at he
    all_goals
      exact processEnemies_alive dist dt _ [] id (by intro x hx; cases hx) e he
  refine ⟨halive, ?_⟩
  unfold Game.killRewardPhase
  split_ifs with hk
  · exact killReward_foldl_id mult _ halive (money, score)
  · rfl

/-- The spawn phase never changes the wave_active flag. -/
theorem spawnPhase_wave_active (dt : ℚ) (wm : WaveManager) :
    (wm.spawnPhase dt).wave_active = wm.wave_active := by
  unfold WaveManager.spawnPhase
  split_ifs <;> rfl

/-- C8: is_wave_complete is false from the moment start_wave is called, a
wave deactivates (making is_wave_complete true) exactly when both the spawn
queue and the live-enemy list are empty after the update, and calling
start_wave while a wave is active is a no-op leaving the whole manager state
(wave counter, queue, everything) unchanged. -/
theorem C8_wave_lifecycle (dist : ℚ × ℚ → ℚ × ℚ → ℚ) (dt : ℚ) (wm : WaveManager)
    (shuffle : List (String × ℚ) → List (String × ℚ)) :
    (wm.wave_active = true → wm.start_wave shuffle = wm) ∧
    (wm.wave_active = false → (wm.start_wave shuffle).is_wave_complete = false) ∧
    (wm.wave_active = true →
      (((WaveManager.update dist dt wm).1).is_wave_complete = true ↔
        (((WaveManager.update dist dt wm).1).enemies_to_spawn = [] ∧
         ((WaveManager.update dist dt wm).1).enemies = []))) := by
  refine ⟨?_, ?_, ?_⟩
  · intro h
    unfold WaveManager.start_wave
    rw [if_pos h]
  · intro h
    unfold WaveManager.start_wave WaveManager.is_wave_complete
    rw [if_neg (by simp [h])]
    rfl
  · intro h
    have hwa : (wm.spawnPhase dt).wave_active = true := by
      rw [spawnPhase_wave_active]; exact h
    simp only [WaveManager.update, WaveManager.is_wave_complete]
    split_ifs with hc
    · constructor
      · intro _
        exact ⟨hc.2.1, hc.2.2⟩
      · intro _
        rfl
    · constructor
      · intro hfalse
        simp [hwa] at hfalse
      · intro hqe
        exfalso
        exact hc ⟨hwa, hqe.1, hqe.2⟩

/-- A concrete fresh wave manager (one waypoint, neutral difficulty). -/
def wmEx0 : WaveManager := WaveManager.init [((0 : ℚ), (0 : ℚ))] 1 1

/-- The concrete manager right after its first start_wave call. -/
def wmEx1 : WaveManager := wmEx0.start_wave id

/-- Witness for C8 at the concrete manager: starting flips is_wave_complete to
false, a second start_wave is a no-op, and the completion condition of the
next update is exactly queue-empty-and-no-live-enemies. -/
theorem C8_witness :
    wmEx0.wave_active = false ∧
    wmEx1.is_wave_complete = false ∧
    wmEx1.wave_active = true ∧
    wmEx1.start_wave id = wmEx1 ∧
    (((WaveManager.update (fun _ _ => 0) 1 wmEx1).1).is_wave_complete = true ↔
      (((WaveManager.update (fun _ _ => 0) 1 wmEx1).1).enemies_to_spawn = [] ∧
       ((WaveManager.update (fun _ _ => 0) 1 wmEx1).1).enemies = [])) := by
  have h0 : wmEx0.wave_active = false := rfl
  have h1 : wmEx1.wave_active = true := by
    unfold wmEx1 WaveManager.start_wave
    rw [if_neg (by simp [h0])]
  refine ⟨h0, (C8_wave_lifecycle (fun _ _ => 0) 1 wmEx0 id).2.1 h0, h1,
    (C8_wave_lifecycle (fun _ _ => 0) 1 wmEx1 id).1 h1,
    (C8_wave_lifecycle (fun _ _ => 0) 1 wmEx1 id).2.2 h1⟩

/-- The per-kind count declared in a wave composition table. -/
def waveCount : List (String × ℕ) → String → ℕ
  | [], _ => 0
  | p :: rest, k => (if p.1 = k then p.2 else 0) + waveCount rest k

/-- Counting a kind in the expansion fold: the accumulated list contributes
its own count and the remaining table contributes its declared counts. -/
theorem expandFold_count (tbe : ℚ) (k : String) :
    ∀ (wd : List (String × ℕ)) (acc : List (String × ℚ)) (t : ℚ),
      (((wd.foldl (expandStep tbe) (acc, t)).1).map Prod.fst).count k
        = ((acc.map Prod.fst).count k) + waveCount wd k := by
  intro wd
  induction wd with
  | nil =>
    intro acc t
    simp [waveCount]
  | cons p rest ih =>
    intro acc t
    simp only [List.foldl_cons, waveCount]
    rw [show expandStep tbe (acc, t) p
        = (acc ++ (List.range p.2).map (fun (i : ℕ) => (p.1, t + (i : ℚ) * tbe)),
           t + (p.2 : ℚ) * tbe) from rfl]
    rw [ih, List.map_append, List.count_append]
    have hrep : (((List.range p.2).map (fun (i : ℕ) => (p.1, t + (i : ℚ) * tbe))).map Prod.fst).count k
        = if p.1 = k then p.2 else 0 := by
      have hr : ((List.range p.2).map (fun (i : ℕ) => (p.1, t + (i : ℚ) * tbe))).map Prod.fst
          = List.replicate p.2 p.1 := by
        rw [List.eq_replicate_iff]
        refine ⟨by rw [List.length_map, List.length_map, List.length_range], ?_⟩
        intro b hb
        rcases List.mem_map.1 hb with ⟨q, hq, rfl⟩
        rcases List.mem_map.1 hq with ⟨i, _, rfl⟩
        rfl
      rw [hr, List.count_replicate]
      simp only [beq_iff_eq]
    omega

/-- The state produced by start_wave on an idle manager, spelled out. -/
theorem start_wave_state (shuffle : List (String × ℚ) → List (String × ℚ))
    (wm : WaveManager) (h : wm.wave_active = false) :
    wm.start_wave shuffle =
      { wm with
        current_wave := wm.current_wave + 1
        wave_active := true
        wave_spawn_timer := 0
        enemies_to_spawn :=
          (shuffle (expandWave wm.time_between_enemies
            (WAVES.getD (min (wm.current_wave + 1 - 1) (WAVES.length - 1)) []))).enum.map
            (fun p => (p.2.1, (p.1 : ℚ) * wm.time_between_enemies)) } := by
  unfold WaveManager.start_wave
  rw [if_neg (by simp [h])]

/-- The kinds of the reassigned queue are exactly the kinds of the shuffled
expansion (the offset rewrite keeps the kind of each entry). -/
theorem queue_map_fst (shuffle : List (String × ℚ) → List (String × ℚ))
    (wm : WaveManager) (h : wm.wave_active = false) :
    ((wm.start_wave shuffle).enemies_to_spawn).map Prod.fst
      = (shuffle (expandWave wm.time_between_enemies
          (WAVES.getD (min (wm.current_wave + 1 - 1) (WAVES.length - 1)) []))).map Prod.fst := by
  rw [start_wave_state shuffle wm h]
  dsimp only
  rw [List.map_map]
  rw [show (Prod.fst ∘ fun (p : ℕ × (String × ℚ)) =>
      ((p.2.1 : String), (p.1 : ℚ) * wm.time_between_enemies))
    = (Prod.fst ∘ (Prod.snd : ℕ × (String × ℚ) → String × ℚ)) from rfl]
  rw [← List.map_map, List.enum_map_snd]

/-- The reassigned offsets are index * time_between_enemies. -/
theorem queue_offsets (shuffle : List (String × ℚ) → List (String × ℚ))
    (wm : WaveManager) (h : wm.wave_active = false) :
    ∀ i, (hi : i < ((wm.start_wave shuffle).enemies_to_spawn).length) →
      (((wm.start_wave shuffle).enemies_to_spawn).getD i ("", 0)).2
        = (i : ℚ) * wm.time_between_enemies := by
  intro i hi
  rw [start_wave_state shuffle wm h] at hi ⊢
  dsimp only at hi ⊢
  rw [List.getD_eq_getElem _ _ hi]
  simp [List.getElem_enum]

/-- The spawning loop pops a prefix of the queue and appends exactly one
freshly constructed enemy per popped entry. -/
theorem spawnGo_split (wp : List (ℚ × ℚ)) (cw : ℕ) (dh ds timer : ℚ) :
    ∀ (queue : List (String × ℚ)) (acc : List Enemy),
      ∃ popped,
        queue = popped ++ (spawnGo wp cw dh ds timer queue acc).1 ∧
        (spawnGo wp cw dh ds timer queue acc).2
          = acc ++ popped.filterMap
              (fun p => (ENEMY_TYPES p.1).map (fun st => Enemy.init p.1 st wp cw dh ds)) := by
  intro queue
  induction queue with
  | nil =>
    intro acc
    exact ⟨[], by simp [spawnGo]⟩
  | cons q rest ih =>
    intro acc
    obtain ⟨ty, off⟩ := q
    by_cases hle : off ≤ timer
    · obtain ⟨popped, h1, h2⟩ :=
        ih (acc ++ ((ENEMY_TYPES ty).map (fun st => Enemy.init ty st wp cw dh ds)).toList)
      refine ⟨(ty, off) :: popped, ?_, ?_⟩
      · simp only [spawnGo, if_pos hle]
        rw [List.cons_append]
        exact congrArg _ h1
      · simp only [spawnGo, if_pos hle]
        rw [h2, List.filterMap_cons]
        cases hET : ENEMY_TYPES ty with
        | none => simp [hET, List.append_assoc]
        | some st => simp [hET, List.append_assoc]
    · exact ⟨[], by simp [spawnGo, hle], by simp [spawnGo, hle]⟩

/-- The spawning loop drains the whole queue when every offset has elapsed. -/
theorem spawnGo_drain (wp : List (ℚ × ℚ)) (cw : ℕ) (dh ds timer : ℚ) :
    ∀ (queue : List (String × ℚ)) (acc : List Enemy),
      (∀ p ∈ queue, p.2 ≤ timer) →
      (spawnGo wp cw dh ds timer queue acc).1 = [] := by
  intro queue
  induction queue with
  | nil => intro acc _; rfl
  | cons q rest ih =>
    intro acc hall
    obtain ⟨ty, off⟩ := q
    have hle : off ≤ timer := hall (ty, off) (List.mem_cons_self _ _)
    simp only [spawnGo, if_pos hle]
    exact ih _ (fun p hp => hall p (List.mem_cons_of_mem _ hp))

/-- When every queue entry names a kind present in ENEMY_TYPES, the kinds of
the spawned enemies are exactly the kinds of the queue entries, in order. -/
theorem spawned_types (wp : List (ℚ × ℚ)) (cw : ℕ) (dh ds : ℚ) :
    ∀ (queue : List (String × ℚ)),
      (∀ p ∈ queue, (ENEMY_TYPES p.1).isSome = true) →
      (queue.filterMap
        (fun p => (ENEMY_TYPES p.1).map (fun st => Enemy.init p.1 st wp cw dh ds))).map Enemy.type
        = queue.map Prod.fst := by
  intro queue
  induction queue with
  | nil => intro _; rfl
  | cons q rest ih =>
    intro hall
    obtain ⟨ty, off⟩ := q
    have hs := hall (ty, off) (List.mem_cons_self _ _)
    have ihr := ih (fun p hp => hall p (List.mem_cons_of_mem _ hp))
    cases hET : ENEMY_TYPES ty with
    | none => rw [hET] at hs; simp at hs
    | some st =>
      simp only [List.filterMap_cons]
      rw [hET]
      simp only [Option.map_some']
      rw [List.map_cons, ihr]
      rfl

/-- Every kind named anywhere in the WAVES table is present in ENEMY_TYPES. -/
theorem WAVES_kinds_valid :
    WAVES.all (fun wd => wd.all (fun p => (ENEMY_TYPES p.1).isSome)) = true := by
  decide

/-- Every entry of the expansion fold either comes from the accumulator or
carries a kind declared in the remaining table. -/
theorem expandFold_kinds (tbe : ℚ) :
    ∀ (wd : List (String × ℕ)) (acc : List (String × ℚ)) (t : ℚ),
      ∀ p ∈ (wd.foldl (expandStep tbe) (acc, t)).1,
        p ∈ acc ∨ ∃ q ∈ wd, p.1 = q.1 := by
  intro wd
  induction wd with
  | nil =>
    intro acc t p hp
    left
    simpa using hp
  | cons w rest ih =>
    intro acc t p hp
    simp only [List.foldl_cons] at hp
    rcases ih _ _ p hp with hacc | ⟨q, hq, he⟩
    · rcases List.mem_append.1 hacc with h1 | h1
      · left; exact h1
      · right
        rcases List.mem_map.1 h1 with ⟨i, _, rfl⟩
        exact ⟨w, List.mem_cons_self _ _, rfl⟩
    · right
      exact ⟨q, List.mem_cons_of_mem _ hq, he⟩

/-- Every kind in the queue built by start_wave is present in ENEMY_TYPES. -/
theorem queue_kinds_valid (shuffle : List (String × ℚ) → List (String × ℚ))
    (wm : WaveManager) (hperm : ∀ l, (shuffle l).Perm l) (h : wm.wave_active = false) :
    ∀ p ∈ (wm.start_wave shuffle).enemies_to_spawn, (ENEMY_TYPES p.1).isSome = true := by
  intro p hp
  rw [start_wave_state shuffle wm h] at hp
  dsimp only at hp
  rcases List.mem_map.1 hp with ⟨q, hq, rfl⟩
  have h2 : q.2 ∈ shuffle (expandWave wm.time_between_enemies
      (WAVES.getD (min (wm.current_wave + 1 - 1) (WAVES.length - 1)) [])) := by
    have hmem := List.mem_map_of_mem Prod.snd hq
    rwa [List.enum_map_snd] at hmem
  have h3 := (hperm _).mem_iff.1 h2
  rcases expandFold_kinds wm.time_between_enemies _ [] 0 _ h3 with habs | ⟨w, hw, he⟩
  · cases habs
  · have hidx : min (wm.current_wave + 1 - 1) (WAVES.length - 1) < WAVES.length :=
      lt_of_le_of_lt (min_le_right _ _) (by decide)
    have hwd : WAVES.getD (min (wm.current_wave + 1 - 1) (WAVES.length - 1)) [] ∈ WAVES := by
      rw [List.getD_eq_getElem _ _ hidx]
      exact List.getElem_mem _
    have hv1 := (List.all_eq_true.1 WAVES_kinds_valid) _ hwd
    have hv2 := (List.all_eq_true.1 hv1) _ hw
    dsimp only
    rw [he]
    exact hv2

/-- One spawn-phase pass pops a prefix of the queue, appends one enemy per
popped entry, and empties the queue when every offset has elapsed. -/
theorem spawnPhase_split (dt : ℚ) (wm : WaveManager) :
    ∃ popped,
      wm.enemies_to_spawn = popped ++ (wm.spawnPhase dt).enemies_to_spawn ∧
      (wm.spawnPhase dt).enemies
        = wm.enemies ++ popped.filterMap
            (fun p => (ENEMY_TYPES p.1).map
              (fun st => Enemy.init p.1 st wm.waypoints wm.current_wave wm.diffHealth wm.diffSpeed)) ∧
      ((∀ p ∈ wm.enemies_to_spawn, p.2 ≤ wm.wave_spawn_timer + dt) → wm.wave_active = true →
        (wm.spawnPhase dt).enemies_to_spawn = []) := by
  unfold WaveManager.spawnPhase
  split_ifs with hc
  · obtain ⟨popped, h1, h2⟩ := spawnGo_split wm.waypoints wm.current_wave wm.diffHealth
      wm.diffSpeed (wm.wave_spawn_timer + dt) wm.enemies_to_spawn wm.enemies
    exact ⟨popped, h1, h2, fun hall _ => spawnGo_drain _ _ _ _ _ _ _ hall⟩
  · refine ⟨[], by simp, by simp, ?_⟩
    intro hall hwa
    by_contra hne
    exact hc ⟨hwa, hne⟩

/-- C7: after start_wave, the spawn queue holds exactly the per-kind counts
declared in the wave table entry (any shuffle permutation only reorders it),
the reassigned offsets are index * 0.5 and strictly increasing, each update
spawn pass creates exactly one enemy (of the entry kind) per popped queue
prefix entry, and once the last offset has elapsed the queue is fully drained,
so over the wave lifetime exactly the declared number of each kind spawns. -/
theorem C7_spawn_queue (shuffle : List (String × ℚ) → List (String × ℚ))
    (wm : WaveManager) (dt : ℚ) (k : String)
    (hperm : ∀ l, (shuffle l).Perm l) (hact : wm.wave_active = false)
    (htbe : wm.time_between_enemies = 1/2) :
    (((wm.start_wave shuffle).enemies_to_spawn.map Prod.fst).count k
      = waveCount (WAVES.getD (min (wm.current_wave + 1 - 1) (WAVES.length - 1)) []) k) ∧
    (∀ i, (hi : i < (wm.start_wave shuffle).enemies_to_spawn.length) →
      (((wm.start_wave shuffle).enemies_to_spawn).getD i ("", 0)).2 = (i : ℚ) * (1/2)) ∧
    (∀ i j, i < j → j < (wm.start_wave shuffle).enemies_to_spawn.length →
      (((wm.start_wave shuffle).enemies_to_spawn).getD i ("", 0)).2
        < (((wm.start_wave shuffle).enemies_to_spawn).getD j ("", 0)).2) ∧
    (∃ popped,
      (wm.start_wave shuffle).enemies_to_spawn
        = popped ++ ((wm.start_wave shuffle).spawnPhase dt).enemies_to_spawn ∧
      (((wm.start_wave shuffle).spawnPhase dt).enemies.map Enemy.type)
        = (wm.start_wave shuffle).enemies.map Enemy.type ++ popped.map Prod.fst) ∧
    ((((wm.start_wave shuffle).enemies_to_spawn.length - 1 : ℕ) : ℚ) * (1/2) ≤ dt →
      ((wm.start_wave shuffle).spawnPhase dt).enemies_to_spawn = [] ∧
      ((((wm.start_wave shuffle).spawnPhase dt).enemies.map Enemy.type).count k
        = ((wm.start_wave shuffle).enemies.map Enemy.type).count k
          + waveCount (WAVES.getD (min (wm.current_wave + 1 - 1) (WAVES.length - 1)) []) k)) := by
  have hvalid := queue_kinds_valid shuffle wm hperm hact
  have hQcount : ((wm.start_wave shuffle).enemies_to_spawn.map Prod.fst).count k
      = waveCount (WAVES.getD (min (wm.current_wave + 1 - 1) (WAVES.length - 1)) []) k := by
    rw [queue_map_fst shuffle wm hact,
      List.Perm.count_eq ((hperm _).map Prod.fst)]
    unfold expandWave
    rw [expandFold_count]
    simp
  have hoff : ∀ i, (hi : i < (wm.start_wave shuffle).enemies_to_spawn.length) →
      (((wm.start_wave shuffle).enemies_to_spawn).getD i ("", 0)).2 = (i : ℚ) * (1/2) := by
    intro i hi
    rw [queue_offsets shuffle wm hact i hi, htbe]
  have hwa1 : (wm.start_wave shuffle).wave_active = true := by
    rw [start_wave_state shuffle wm hact]
  have htimer : (wm.start_wave shuffle).wave_spawn_timer = 0 := by
    rw [start_wave_state shuffle wm hact]
  obtain ⟨popped, hp1, hp2, hp3⟩ := spawnPhase_split dt (wm.start_wave shuffle)
  have hpoppedvalid : ∀ p ∈ popped, (ENEMY_TYPES p.1).isSome = true := by
    intro p hp
    exact hvalid p (hp1 ▸ List.mem_append_left _ hp)
  have htypes : (((wm.start_wave shuffle).spawnPhase dt).enemies.map Enemy.type)
      = (wm.start_wave shuffle).enemies.map Enemy.type ++ popped.map Prod.fst := by
    rw [hp2, List.map_append, spawned_types _ _ _ _ popped hpoppedvalid]
  refine ⟨hQcount, hoff, ?_, ⟨popped, hp1, htypes⟩, ?_⟩
  · intro i j hij hj
    rw [hoff i (lt_trans hij hj), hoff j hj]
    have : (i : ℚ) < (j : ℚ) := by exact_mod_cast hij
    linarith
  · intro hdt
    have hall : ∀ p ∈ (wm.start_wave shuffle).enemies_to_spawn,
        p.2 ≤ (wm.start_wave shuffle).wave_spawn_timer + dt := by
      intro p hp
      rcases List.mem_iff_getElem.1 hp with ⟨i, hi, rfl⟩
      have hgd : ((wm.start_wave shuffle).enemies_to_spawn).getD i ("", 0)
          = ((wm.start_wave shuffle).enemies_to_spawn)[i] := List.getD_eq_getElem _ _ hi
      have h2 := hoff i hi
      rw [hgd] at h2
      rw [h2, htimer, zero_add]
      have hile : (i : ℚ) ≤ (((wm.start_wave shuffle).enemies_to_spawn.length - 1 : ℕ) : ℚ) := by
        have : i ≤ (wm.start_wave shuffle).enemies_to_spawn.length - 1 := by omega
        exact_mod_cast this
      calc (i : ℚ) * (1/2)
          ≤ (((wm.start_wave shuffle).enemies_to_spawn.length - 1 : ℕ) : ℚ) * (1/2) := by linarith
        _ ≤ dt := hdt
    have hempty := hp3 hall hwa1
    refine ⟨hempty, ?_⟩
    rw [htypes, List.count_append]
    have hpq : popped = (wm.start_wave shuffle).enemies_to_spawn := by
      rw [hp1, hempty, List.append_nil]
    rw [show popped.map Prod.fst = (wm.start_wave shuffle).enemies_to_spawn.map Prod.fst from by rw [hpq]]
    rw [hQcount]

/-- Witness for C7 at the concrete fresh manager and the identity shuffle:
wave 1 declares \{basic: 10\}; the queue counts 10 "basic" entries, the fourth
offset is 3 * 0.5, and a big enough dt drains the queue spawning all 10. -/
theorem C7_witness :
    (∀ l : List (String × ℚ), (id l).Perm l) ∧
    wmEx0.wave_active = false ∧
    wmEx0.time_between_enemies = 1/2 ∧
    (((wmEx0.start_wave id).enemies_to_spawn.map Prod.fst).count "basic"
      = waveCount (WAVES.getD (min (wmEx0.current_wave + 1 - 1) (WAVES.length - 1)) []) "basic") ∧
    (((wmEx0.start_wave id).enemies_to_spawn.getD 3 ("", 0)).2 = ((3 : ℕ) : ℚ) * (1/2)) ∧
    ((wmEx0.start_wave id).spawnPhase 10).enemies_to_spawn = [] ∧
    ((((wmEx0.start_wave id).spawnPhase 10).enemies.map Enemy.type).count "basic"
      = ((wmEx0.start_wave id).enemies.map Enemy.type).count "basic"
        + waveCount (WAVES.getD (min (wmEx0.current_wave + 1 - 1) (WAVES.length - 1)) []) "basic") := by
  have hperm : ∀ l : List (String × ℚ), (id l).Perm l := fun l => List.Perm.refl l
  have hact : wmEx0.wave_active = false := rfl
  have htbe : wmEx0.time_between_enemies = 1/2 := rfl
  have h := C7_spawn_queue id wmEx0 10 "basic" hperm hact htbe
  have hlen : (wmEx0.start_wave id).enemies_to_spawn.length = 10 := rfl
  have hdt : (((wmEx0.start_wave id).enemies_to_spawn.length - 1 : ℕ) : ℚ) * (1/2) ≤ 10 := by
    rw [hlen]
    norm_num
  exact ⟨hperm, hact, htbe, h.1, h.2.1 3 (by rw [hlen]; norm_num),
    (h.2.2.2.2 hdt).1, (h.2.2.2.2 hdt).2⟩

/-- Embedding of the Python builtin max(iterable, key=...) used in
get_targeted_enemy: fold keeping the current best, replacing it only on a
strictly greater key, so the FIRST maximal element is returned. -/
def maxByKey (key : Enemy → ℚ) : List Enemy → Option Enemy
  | [] => none
  | e :: rest => some (rest.foldl (fun best x => if key best < key x then x else best) e)

/-- Embedding of the Python builtin min(iterable, key=...): the first minimal
element is returned. -/
def minByKey (key : Enemy → ℚ) : List Enemy → Option Enemy
  | [] => none
  | e :: rest => some (rest.foldl (fun best x => if key x < key best then x else best) e)

/-- The max fold returns an element of the candidates with a maximal key. -/
theorem foldl_maxBy_spec (key : Enemy → ℚ) :
    ∀ (l : List Enemy) (b : Enemy),
      (l.foldl (fun best x => if key best < key x then x else best) b ∈ b :: l) ∧
      (key b ≤ key (l.foldl (fun best x => if key best < key x then x else best) b)) ∧
      (∀ y ∈ l, key y ≤ key (l.foldl (fun best x => if key best < key x then x else best) b)) := by
  intro l
  induction l with
  | nil =>
    intro b
    exact ⟨List.mem_singleton.2 rfl, le_refl _, by intro y hy; cases hy⟩
  | cons a rest ih =>
    intro b
    simp only [List.foldl_cons]
    obtain ⟨ihmem, ihb, ihall⟩ := ih (if key b < key a then a else b)
    have hba : key b ≤ key (if key b < key a then a else b) := by
      split_ifs with h
      · exact le_of_lt h
      · exact le_refl _
    have haa : key a ≤ key (if key b < key a then a else b) := by
      split_ifs with h
      · exact le_refl _
      · exact le_of_not_lt h
    refine ⟨?_, le_trans hba ihb, ?_⟩
    · rcases List.mem_cons.1 ihmem with he | he
      · split_ifs at he ⊢ with h
        · rw [he]
          exact List.mem_cons_of_mem _ (List.mem_cons_self _ _)
        · rw [he]
          exact List.mem_cons_self _ _
      · exact List.mem_cons_of_mem _ (List.mem_cons_of_mem _ he)
    · intro y hy
      rcases List.mem_cons.1 hy with rfl | hy2
      · exact le_trans haa ihb
      · exact ihall y hy2

/-- The min fold returns an element of the candidates with a minimal key. -/
theorem foldl_minBy_spec (key : Enemy → ℚ) :
    ∀ (l : List Enemy) (b : Enemy),
      (l.foldl (fun best x => if key x < key best then x else best) b ∈ b :: l) ∧
      (key (l.foldl (fun best x => if key x < key best then x else best) b) ≤ key b) ∧
      (∀ y ∈ l, key (l.foldl (fun best x => if key x < key best then x else best) b) ≤ key y) := by
  intro l
  induction l with
  | nil =>
    intro b
    exact ⟨List.mem_singleton.2 rfl, le_refl _, by intro y hy; cases hy⟩
  | cons a rest ih =>
    intro b
    simp only [List.foldl_cons]
    obtain ⟨ihmem, ihb, ihall⟩ := ih (if key a < key b then a else b)
    have hba : key (if key a < key b then a else b) ≤ key b := by
      split_ifs with h
      · exact le_of_lt h
      · exact le_refl _
    have haa : key (if key a < key b then a else b) ≤ key a := by
      split_ifs with h
      · exact le_refl _
      · exact le_of_not_lt h
    refine ⟨?_, le_trans ihb hba, ?_⟩
    · rcases List.mem_cons.1 ihmem with he | he
      · split_ifs at he ⊢ with h
        · rw [he]
          exact List.mem_cons_of_mem _ (List.mem_cons_self _ _)
        · rw [he]
          exact List.mem_cons_self _ _
      · exact List.mem_cons_of_mem _ (List.mem_cons_of_mem _ he)
    · intro y hy
      rcases List.mem_cons.1 hy with rfl | hy2
      · exact le_trans ihb haa
      · exact ihall y hy2

/-- Packaging of foldl_maxBy_spec through the option. -/
theorem maxByKey_spec (key : Enemy → ℚ) (l : List Enemy) (x : Enemy)
    (h : maxByKey key l = some x) : x ∈ l ∧ ∀ y ∈ l, key y ≤ key x := by
  cases l with
  | nil => cases h
  | cons a rest =>
    obtain ⟨hmem, hb, hall⟩ := foldl_maxBy_spec key rest a
    have hx : rest.foldl (fun best x => if key best < key x then x else best) a = x := by
      injection h
    rw [hx] at hmem hb hall
    refine ⟨hmem, ?_⟩
    intro y hy
    rcases List.mem_cons.1 hy with rfl | hy2
    · exact hb
    · exact hall y hy2

/-- Packaging of foldl_minBy_spec through the option. -/
theorem minByKey_spec (key : Enemy → ℚ) (l : List Enemy) (x : Enemy)
    (h : minByKey key l = some x) : x ∈ l ∧ ∀ y ∈ l, key x ≤ key y := by
  cases l with
  | nil => cases h
  | cons a rest =>
    obtain ⟨hmem, hb, hall⟩ := foldl_minBy_spec key rest a
    have hx : rest.foldl (fun best x => if key x < key best then x else best) a = x := by
      injection h
    rw [hx] at hmem hb hall
    refine ⟨hmem, ?_⟩
    intro y hy
    rcases List.mem_cons.1 hy with rfl | hy2
    · exact hb
    · exact hall y hy2

/-- WaveManager.get_enemies_in_range from src/enemy.py lines 356-361: the
enemies that are alive, have not reached the end, and lie within the given
distance of the position. -/
def WaveManager.get_enemies_in_range (dist : ℚ × ℚ → ℚ × ℚ → ℚ) (wm : WaveManager)
    (position : ℚ × ℚ) (range_distance : ℚ) : List Enemy :=
  wm.enemies.filter (fun e =>
    e.alive && !e.reached_end && decide (dist position (e.x, e.y) ≤ range_distance))

/-- The total waypoint path length used by Enemy.get_progress (the sum of the
distances of consecutive waypoints, src/enemy.py lines 260-261). -/
def pathLength (dist : ℚ × ℚ → ℚ × ℚ → ℚ) : List (ℚ × ℚ) → ℚ
  | [] => 0
  | [_] => 0
  | p :: q :: rest => dist p q + pathLength dist (q :: rest)

/-- Enemy.get_progress from src/enemy.py lines 256-264: progress along the
path in [0, 1], with the empty-path and zero-length guards of the source. -/
def Enemy.get_progress (dist : ℚ × ℚ → ℚ × ℚ → ℚ) (self : Enemy) : ℚ :=
  if self.waypoints = [] then 0
  else
    let total := pathLength dist self.waypoints
    if total = 0 then 0 else min 1 (self.distance_traveled / total)

/-- WaveManager.get_targeted_enemy from src/enemy.py lines 363-381: filter to
the in-range candidates, then pick by mode (max/min of the mode key, Python
max/min semantics: first extremal element); the final else returns the first
candidate. This query is a pure function of the manager: the embedding takes
the manager immutably and returns only the chosen enemy, mirroring the fact
that the source method writes no state, so repeated calls in one tick agree. -/
def WaveManager.get_targeted_enemy (dist : ℚ × ℚ → ℚ × ℚ → ℚ) (wm : WaveManager)
    (position : ℚ × ℚ) (range_distance : ℚ) (mode : String) : Option Enemy :=
  let enemies := wm.get_enemies_in_range dist position range_distance
  if enemies = [] then none
  else if mode = "first" then maxByKey (Enemy.get_progress dist) enemies
  else if mode = "last" then minByKey (Enemy.get_progress dist) enemies
  else if mode = "closest" then minByKey (fun e => dist position (e.x, e.y)) enemies
  else if mode = "strongest" then maxByKey Enemy.health enemies
  else if mode = "weakest" then minByKey Enemy.health enemies
  else enemies.head?

/-- C10: get_targeted_enemy considers exactly the alive, not-arrived enemies
within range of the position; it returns none exactly when no candidate
exists; mode "first" returns a candidate of maximal progress along the path,
"last" of minimal progress, "closest" of minimal distance to the position,
"strongest" of maximal and "weakest" of minimal current health. The query is a
pure function of the manager state (no mutation), so repeated calls within a
tick agree by construction. -/
theorem C10_get_targeted_enemy (dist : ℚ × ℚ → ℚ × ℚ → ℚ) (wm : WaveManager)
    (position : ℚ × ℚ) (r : ℚ) :
    (∀ e, e ∈ wm.get_enemies_in_range dist position r ↔
      (e ∈ wm.enemies ∧ e.alive = true ∧ e.reached_end = false ∧
        dist position (e.x, e.y) ≤ r)) ∧
    (∀ mode, (wm.get_targeted_enemy dist position r mode = none ↔
      wm.get_enemies_in_range dist position r = [])) ∧
    (∀ e, wm.get_targeted_enemy dist position r "first" = some e →
      e ∈ wm.get_enemies_in_range dist position r ∧
      ∀ y ∈ wm.get_enemies_in_range dist position r,
        y.get_progress dist ≤ e.get_progress dist) ∧
    (∀ e, wm.get_targeted_enemy dist position r "last" = some e →
      e ∈ wm.get_enemies_in_range dist position r ∧
      ∀ y ∈ wm.get_enemies_in_range dist position r,
        e.get_progress dist ≤ y.get_progress dist) ∧
    (∀ e, wm.get_targeted_enemy dist position r "closest" = some e →
      e ∈ wm.get_enemies_in_range dist position r ∧
      ∀ y ∈ wm.get_enemies_in_range dist position r,
        dist position (e.x, e.y) ≤ dist position (y.x, y.y)) ∧
    (∀ e, wm.get_targeted_enemy dist position r "strongest" = some e →
      e ∈ wm.get_enemies_in_range dist position r ∧
      ∀ y ∈ wm.get_enemies_in_range dist position r, y.health ≤ e.health) ∧
    (∀ e, wm.get_targeted_enemy dist position r "weakest" = some e →
      e ∈ wm.get_enemies_in_range dist position r ∧
      ∀ y ∈ wm.get_enemies_in_range dist position r, e.health ≤ y.health) := by
  refine ⟨?_, ?_, ?_, ?_, ?_, ?_, ?_⟩
  · intro e
    simp [WaveManager.get_enemies_in_range, List.mem_filter, and_assoc,
      Bool.and_eq_true, decide_eq_true_eq]
  · intro mode
    unfold WaveManager.get_targeted_enemy
    by_cases hemp : wm.get_enemies_in_range dist position r = []
    · simp [hemp]
    · rw [if_neg hemp]
      constructor
      · intro hnone
        exfalso
        rcases hl : wm.get_enemies_in_range dist position r with _ | ⟨a, rest⟩
        · exact hemp hl
        · rw [hl] at hnone
          split_ifs at hnone <;> simp [maxByKey, minByKey] at hnone
      · intro hx
        exact absurd hx hemp
  · intro e h
    unfold WaveManager.get_targeted_enemy at h
    by_cases hemp : wm.get_enemies_in_range dist position r = []
    · rw [if_pos hemp] at h
      cases h
    · rw [if_neg hemp, if_pos rfl] at h
      exact maxByKey_spec _ _ _ h
  · intro e h
    unfold WaveManager.get_targeted_enemy at h
    by_cases hemp : wm.get_enemies_in_range dist position r = []
    · rw [if_pos hemp] at h
      cases h
    · rw [if_neg hemp, if_neg (by decide), if_pos rfl] at h
      exact minByKey_spec _ _ _ h
  · intro e h
    unfold WaveManager.get_targeted_enemy at h
    by_cases hemp : wm.get_enemies_in_range dist position r = []
    · rw [if_pos hemp] at h
      cases h
    · rw [if_neg hemp, if_neg (by decide), if_neg (by decide), if_pos rfl] at h
      exact minByKey_spec _ _ _ h
  · intro e h
    unfold WaveManager.get_targeted_enemy at h
    by_cases hemp : wm.get_enemies_in_range dist position r = []
    · rw [if_pos hemp] at h
      cases h
    · rw [if_neg hemp, if_neg (by decide), if_neg (by decide), if_neg (by decide),
        if_pos rfl] at h
      exact maxByKey_spec _ _ _ h
  · intro e h
    unfold WaveManager.get_targeted_enemy at h
    by_cases hemp : wm.get_enemies_in_range dist position r = []
    · rw [if_pos hemp] at h
      cases h
    · rw [if_neg hemp, if_neg (by decide), if_neg (by decide), if_neg (by decide),
        if_neg (by decide), if_pos rfl] at h
      exact minByKey_spec _ _ _ h

/-- The trivial distance function used for witness instantiation. -/
def distZ : ℚ × ℚ → ℚ × ℚ → ℚ := fun _ _ => 0

/-- A weak candidate enemy (health 50; whole-number fields). -/
def eWeakT : Enemy := { enemyShielded with health := 50, type := "basic", base_speed := 2, speed := 2 }

/-- A strong candidate enemy (health 80; whole-number fields). -/
def eStrongT : Enemy := { enemyShielded with health := 80, type := "tank", base_speed := 2, speed := 2 }

/-- A manager holding the two candidates. -/
def wmT : WaveManager := { wmEx0 with enemies := [eWeakT, eStrongT] }

/-- Witness for C10 at the concrete manager: "strongest" picks the health-80
enemy and it maximizes health among the candidates; "weakest" picks the
health-50 one. -/
theorem C10_witness :
    wmT.get_targeted_enemy distZ (0, 0) 10 "strongest" = some eStrongT ∧
    eStrongT ∈ wmT.get_enemies_in_range distZ (0, 0) 10 ∧
    (∀ y ∈ wmT.get_enemies_in_range distZ (0, 0) 10, y.health ≤ eStrongT.health) ∧
    wmT.get_targeted_enemy distZ (0, 0) 10 "weakest" = some eWeakT ∧
    (∀ y ∈ wmT.get_enemies_in_range distZ (0, 0) 10, eWeakT.health ≤ y.health) := by
  have hs : wmT.get_targeted_enemy distZ (0, 0) 10 "strongest" = some eStrongT := by
    decide
  have hw : wmT.get_targeted_enemy distZ (0, 0) 10 "weakest" = some eWeakT := by
    decide
  have h := C10_get_targeted_enemy distZ wmT (0, 0) 10
  exact ⟨hs, (h.2.2.2.2.2.1 eStrongT hs).1, (h.2.2.2.2.2.1 eStrongT hs).2,
    hw, (h.2.2.2.2.2.2 eWeakT hw).2⟩

/-- LaserBeam from src/projectile.py lines 154-180 (start_pos, the target
reference, damage, active; the in-place target mutation is returned
explicitly). -/
structure LaserBeam where
  start_pos : ℚ × ℚ
  target : Option Enemy
  damage : ℤ
  active : Bool
deriving DecidableEq

/-- LaserBeam.update from src/projectile.py lines 167-180: deactivate and
report removal when the target is gone or dead; otherwise call
target.take_damage(int(damage * dt)) — note the integer truncation — and keep
the beam. The middle component is the (possibly damaged) target object. -/
def LaserBeam.update (self : LaserBeam) (dt : ℚ) : LaserBeam × Option Enemy × Bool :=
  match self.target with
  | none => ({ self with active := false }, none, true)
  | some t =>
    if t.alive = false then ({ self with active := false }, some t, true)
    else (self, some (t.take_damage ((pyInt ((self.damage : ℚ) * dt) : ℤ) : ℚ)).1, false)

/-- Replacement of the first occurrence of an enemy object in the shared list:
the embedding of mutating the aliased element in place. -/
def writeBack : List Enemy → Enemy → Enemy → List Enemy
  | [], _, _ => []
  | e :: rest, old, new1 => if e = old then new1 :: rest else e :: writeBack rest old new1

/-- LaserTower from src/tower.py lines 509-534 (the fields its update reads
and writes). -/
structure LaserTower where
  x : ℚ
  y : ℚ
  range : ℚ
  damage : ℤ
  fire_rate : ℚ
  fire_cooldown : ℚ
  target : Option Enemy
  laser_beam : Option LaserBeam
deriving DecidableEq

/-- LaserTower.update from src/tower.py lines 514-531: re-select the target
each call (no fire-cooldown logic at all), create a beam when none is active
(no damage on that tick), otherwise retarget the beam and run it, writing the
damaged target back into the manager list. -/
def LaserTower.update (dist : ℚ × ℚ → ℚ × ℚ → ℚ) (dt : ℚ) (self : LaserTower)
    (wm : WaveManager) : LaserTower × WaveManager :=
  match wm.get_targeted_enemy dist (self.x, self.y) self.range "first" with
  | none => ({ self with target := none, laser_beam := none }, wm)
  | some t =>
    match self.laser_beam with
    | none =>
      ({ self with
          target := some t
          laser_beam := some { start_pos := (self.x, self.y), target := some t,
                               damage := self.damage, active := true } }, wm)
    | some beam =>
      if beam.active = false then
        ({ self with
            target := some t
            laser_beam := some { start_pos := (self.x, self.y), target := some t,
                                 damage := self.damage, active := true } }, wm)
      else
        let beam1 : LaserBeam := { beam with target := some t }
        let r := beam1.update dt
        let wm1 : WaveManager :=
          match r.2.1 with
          | some t1 => { wm with enemies := writeBack wm.enemies t t1 }
          | none => wm
        ({ self with target := some t, laser_beam := some r.1 }, wm1)

/-- take_damage with zero damage never changes health. -/
theorem take_damage_zero_health (t : Enemy) : ((t.take_damage 0).1).health = t.health := by
  have hmin : min t.shield 0 ≤ 0 := min_le_right _ _
  simp only [Enemy.take_damage]
  split_ifs <;> simp_all <;> linarith

/-- pyInt truncates any value in [0, 1) to 0. -/
theorem pyInt_zero_of_lt_one (q : ℚ) (h0 : 0 ≤ q) (h1 : q < 1) : pyInt q = 0 := by
  unfold pyInt
  rw [if_neg (not_lt.2 h0)]
  exact Int.floor_eq_zero_iff.2 ⟨h0, h1⟩

/-- A plain living target for the laser (whole-number fields). -/
def laserVictim : Enemy :=
  { enemyShielded with
    type := "basic"
    health := 50
    max_health := 50
    shield := 0
    max_shield := 0
    shield_regen_rate := 0
    base_speed := 2
    speed := 2 }

/-- A laser beam of the laser tower (table damage 8) locked on the victim. -/
def laserBeamC : LaserBeam :=
  { start_pos := (0, 0), target := some laserVictim, damage := 8, active := true }

/-- C5 counterexample: at dt = 1/60 the beam deals int(8 * 1/60) = 0 damage,
so the target health stays exactly 50, while the claimed continuous damage
8 * dt would leave 50 - 8/60: the beam does not produce fractional health
loss. -/
theorem C5_counterexample :
    laserVictim.health = 50 ∧
    ((laserBeamC.update (1/60)).2.1.map Enemy.health) = some 50 ∧
    (50 : ℚ) ≠ 50 - (8 : ℚ) * (1/60) := by
  refine ⟨rfl, ?_, by norm_num⟩
  have hz : pyInt (((8 : ℤ) : ℚ) * (1/60)) = 0 :=
    pyInt_zero_of_lt_one _ (by norm_num) (by norm_num)
  simp only [LaserBeam.update, laserBeamC]
  rw [if_neg (by simp [laserVictim, enemyShielded])]
  simp only [Option.map_some']
  rw [hz]
  simp only [Int.cast_zero]
  rw [take_damage_zero_health]
  rfl

/-- C5 amended: the laser tower re-selects its target on every update call
and never consults or modifies a fire cooldown; but while a beam is running it
applies int(damage * dt) — integer-truncated, not the fractional damage * dt —
through take_damage, which is zero whenever damage * dt < 1 (as at any
ordinary frame rate with the table damage 8), leaving the target health
unchanged on such ticks. -/
theorem C5_laser_truncated (dist : ℚ × ℚ → ℚ × ℚ → ℚ) (dt : ℚ) (tower : LaserTower)
    (wm : WaveManager) (beam : LaserBeam) (t : Enemy) :
    (((LaserTower.update dist dt tower wm).1).target
        = wm.get_targeted_enemy dist (tower.x, tower.y) tower.range "first") ∧
    (((LaserTower.update dist dt tower wm).1).fire_cooldown = tower.fire_cooldown) ∧
    (beam.target = some t → t.alive = true →
      (beam.update dt).2.1 = some (t.take_damage ((pyInt ((beam.damage : ℚ) * dt) : ℤ) : ℚ)).1) ∧
    (beam.target = some t → t.alive = true → 0 ≤ (beam.damage : ℚ) * dt →
      (beam.damage : ℚ) * dt < 1 →
      ((beam.update dt).2.1.map Enemy.health) = some t.health) := by
  have hupd : ((LaserTower.update dist dt tower wm).1).target
        = wm.get_targeted_enemy dist (tower.x, tower.y) tower.range "first" ∧
      ((LaserTower.update dist dt tower wm).1).fire_cooldown = tower.fire_cooldown := by
    unfold LaserTower.update
    rcases hgt : wm.get_targeted_enemy dist (tower.x, tower.y) tower.range "first" with _ | t2
    · exact ⟨rfl, rfl⟩
    · rcases hlb : tower.laser_beam with _ | beam2
      · exact ⟨rfl, rfl⟩
      · dsimp only
        split_ifs <;> exact ⟨rfl, rfl⟩
  have hdmg : beam.target = some t → t.alive = true →
      (beam.update dt).2.1 = some (t.take_damage ((pyInt ((beam.damage : ℚ) * dt) : ℤ) : ℚ)).1 := by
    intro hbt halive
    simp only [LaserBeam.update, hbt]
    rw [if_neg (by simp [halive])]
  refine ⟨hupd.1, hupd.2, hdmg, ?_⟩
  intro hbt halive h0 h1
  rw [hdmg hbt halive]
  rw [pyInt_zero_of_lt_one _ h0 h1]
  simp only [Int.cast_zero, Option.map_some']
  rw [take_damage_zero_health]

/-- Witness for C5 amended at the concrete beam: damage 8, dt = 1/60, all the
hypotheses hold and the target health is unchanged by the tick. -/
theorem C5_witness :
    laserBeamC.target = some laserVictim ∧
    laserVictim.alive = true ∧
    (0 : ℚ) ≤ (laserBeamC.damage : ℚ) * (1/60) ∧
    (laserBeamC.damage : ℚ) * (1/60) < 1 ∧
    ((laserBeamC.update (1/60)).2.1.map Enemy.health) = some laserVictim.health := by
  have h := C5_laser_truncated distZ (1/60)
    { x := 0, y := 0, range := 150, damage := 8, fire_rate := 10, fire_cooldown := 0,
      target := none, laser_beam := none } wmEx0 laserBeamC laserVictim
  have h0 : (0 : ℚ) ≤ (laserBeamC.damage : ℚ) * (1/60) := by
    norm_num [laserBeamC]
  have h1 : (laserBeamC.damage : ℚ) * (1/60) < 1 := by
    norm_num [laserBeamC]
  exact ⟨rfl, rfl, h0, h1, h.2.2.2 rfl rfl h0 h1⟩

/-- Projectile from src/projectile.py lines 10-31 (the fields set in
Projectile.__init__). -/
structure Projectile where
  x : ℚ
  y : ℚ
  speed : ℚ
  damage : ℤ
  active : Bool
  radius : ℚ
  target : Option Enemy
deriving DecidableEq

/-- SupportTower from src/tower.py lines 415-429: the Tower fields plus
buff_range and damage_buff from the stats table. -/
structure SupportTower where
  type : String
  cost : ℤ
  damage : ℤ
  range : ℤ
  fire_rate : ℚ
  level : ℕ
  total_cost : ℤ
  fire_cooldown : ℚ
  buff_range : ℚ
  damage_buff : ℚ
  projectiles : List Projectile
deriving DecidableEq

/-- SupportTower.update from src/tower.py lines 423-425: the body is pass —
the whole update is a no-op; in particular no buff of any kind is computed or
applied to any other tower (the method does not even receive the tower list). -/
def SupportTower.update (dist : ℚ × ℚ → ℚ × ℚ → ℚ) (dt : ℚ) (self : SupportTower)
    (wm : WaveManager) : SupportTower := self

/-- SupportTower.shoot from src/tower.py lines 427-429: pass — no projectile
is ever created. -/
def SupportTower.shoot (self : SupportTower) : SupportTower := self

/-- The damage-boost step of the tower loop in Game.update (src/game.py lines
340-345): the only damage rewrite in the game loop; it uses the ability
damage multiplier and the tower's own remembered base damage — support towers
play no role in it. -/
def Game.towerBoostStep (mult : ℚ) (t : Tower) : Tower :=
  match t.base_damage with
  | some b => { t with damage := pyInt ((b : ℚ) * mult) }
  | none => { t with base_damage := some t.damage }

/-- pyInt is the identity on integers. -/
theorem pyInt_intCast (b : ℤ) : pyInt ((b : ℤ) : ℚ) = b := by
  unfold pyInt
  split_ifs with h
  · rw [← Int.cast_neg, Int.floor_intCast]
    ring
  · rw [Int.floor_intCast]

/-- C6 code evaluation: a support tower (table fire rate 0) never fires — its
shoot and update are no-ops, so its projectile list never grows — but the
damage-buff half of the claim is dead: SupportTower.update is the identity on
the whole game state, no code reads buff_range or damage_buff, and the only
damage rewrite in the game loop (towerBoostStep) multiplies by the ability
multiplier only: with no ability active (multiplier 1) every other tower keeps
exactly its own base damage no matter how close a support tower stands. -/
theorem C6_support_buff_never_applied (dist : ℚ × ℚ → ℚ × ℚ → ℚ) (dt : ℚ)
    (s : SupportTower) (wm : WaveManager) (t : Tower) (b : ℤ) :
    SupportTower.update dist dt s wm = s ∧
    (SupportTower.update dist dt s wm).projectiles = s.projectiles ∧
    SupportTower.shoot s = s ∧
    TOWER_TYPES "support" = some { cost := 180, damage := 0, range := 160, fire_rate := 0, buff_range := 160, damage_buff := 5/4 } ∧
    Game.towerBoostStep 1 { t with base_damage := some b }
      = { t with base_damage := some b, damage := b } := by
  refine ⟨rfl, rfl, rfl, rfl, ?_⟩
  unfold Game.towerBoostStep
  dsimp only
  rw [mul_one, pyInt_intCast]

/-- SpecialAbility from src/abilities.py lines 8-57, with the per-subclass
stat fields (damage/radius for the airstrike, multiplier for the boosts,
restore_amount for the heal) flattened in with zero defaults. -/
structure SpecialAbility where
  type : String
  cost : ℤ
  cooldown : ℚ
  current_cooldown : ℚ
  active : Bool
  duration : ℚ
  time_active : ℚ
  damage : ℤ := 0
  radius : ℚ := 0
  multiplier : ℚ := 1
  restore_amount : ℤ := 0
deriving DecidableEq

/-- SpecialAbility.is_ready from src/abilities.py lines 49-51. -/
def SpecialAbility.is_ready (self : SpecialAbility) : Bool :=
  decide (self.current_cooldown ≤ 0)

/-- SpecialAbility.use from src/abilities.py lines 24-36: when ready, start
the cooldown at its full value, flag active, reset the active timer. -/
def SpecialAbility.use (self : SpecialAbility) : SpecialAbility × Bool :=
  if self.is_ready then
    ({ self with
        current_cooldown := self.cooldown
        active := true
        time_active := 0 }, true)
  else (self, false)

/-- AbilityManager from src/abilities.py lines 105-117: the five abilities
keyed by type and the pending airstrike position. -/
structure AbilityManager where
  abilities : List (String × SpecialAbility)
  pending_airstrike : Option (ℚ × ℚ)
deriving DecidableEq

/-- AbilityManager.__init__ with the SPECIAL_ABILITIES stats of
src/constants.py. -/
def AbilityManager.init : AbilityManager :=
  { abilities :=
      [ ("airstrike", { type := "airstrike", cost := 150, cooldown := 45, current_cooldown := 0, active := false, duration := 0, time_active := 0, damage := 100, radius := 120 }),
        ("freeze_all", { type := "freeze_all", cost := 120, cooldown := 60, current_cooldown := 0, active := false, duration := 3, time_active := 0 }),
        ("cash_boost", { type := "cash_boost", cost := 100, cooldown := 90, current_cooldown := 0, active := false, duration := 10, time_active := 0, multiplier := 2 }),
        ("damage_boost", { type := "damage_boost", cost := 80, cooldown := 50, current_cooldown := 0, active := false, duration := 8, time_active := 0, multiplier := 5/2 }),
        ("health_restore", { type := "health_restore", cost := 200, cooldown := 120, current_cooldown := 0, active := false, duration := 0, time_active := 0, restore_amount := 10 }) ],
    pending_airstrike := none }

/-- AbilityManager.get_ability from src/abilities.py lines 155-157 (dict
lookup). -/
def AbilityManager.get_ability (am : AbilityManager) (ty : String) : Option SpecialAbility :=
  (am.abilities.find? (fun p => p.1 == ty)).map Prod.snd

/-- In-place mutation of the dict entry for one ability type. -/
def AbilityManager.setAbility (am : AbilityManager) (ty : String)
    (ab : SpecialAbility) : AbilityManager :=
  { am with abilities := am.abilities.map (fun p => if p.1 == ty then (p.1, ab) else p) }

/-- AbilityManager.use_ability from src/abilities.py lines 124-153: unknown
kind fails; an ability on cooldown or costing more than the available money
fails with no state change; otherwise use() starts the cooldown and the
airstrike target is recorded. -/
def AbilityManager.use_ability (am : AbilityManager) (ty : String) (money : ℤ)
    (target_pos : Option (ℚ × ℚ)) : AbilityManager × Bool :=
  match am.get_ability ty with
  | none => (am, false)
  | some ability =>
    if ¬ ability.is_ready ∨ money < ability.cost then (am, false)
    else
      let r := ability.use
      if r.2 then
        let am1 := am.setAbility ty r.1
        let am2 :=
          if ty = "airstrike" ∧ target_pos.isSome then
            { am1 with pending_airstrike := target_pos }
          else am1
        (am2, true)
      else (am, false)

/-- Game.use_ability from src/game.py lines 383-408: the pre-check mirrors the
manager check; on success the cost is deducted exactly once and the instant
heal is applied (clamped); inGameArea embeds the mouse-over-game-area test of
the airstrike branch. Returns (money, health, manager). -/
def Game.use_ability (money health maxHealth : ℤ) (am : AbilityManager) (ty : String)
    (inGameArea : Bool) (mouse : ℚ × ℚ) : ℤ × ℤ × AbilityManager :=
  match am.get_ability ty with
  | none => (money, health, am)
  | some ability =>
    if ¬ ability.is_ready ∨ money < ability.cost then (money, health, am)
    else if ty = "airstrike" then
      if inGameArea then
        let r := am.use_ability ty money (some mouse)
        if r.2 then (money - ability.cost, health, r.1) else (money, health, r.1)
      else (money, health, am)
    else
      let r := am.use_ability ty money none
      if r.2 then
        let health1 :=
          if ty = "health_restore" then min maxHealth (health + ability.restore_amount)
          else health
        (money - ability.cost, health1, r.1)
      else (money, health, r.1)

/-- Updating the dict entry for a key rewrites exactly what a lookup of that
key returns. -/
theorem setAbility_get (ty : String) (ab : SpecialAbility) :
    ∀ (l : List (String × SpecialAbility)),
      (((l.map (fun p => if p.1 == ty then (p.1, ab) else p)).find?
          (fun p => p.1 == ty)).map Prod.snd)
        = (((l.find? (fun p => p.1 == ty)).map Prod.snd).map (fun _ => ab)) := by
  intro l
  induction l with
  | nil => rfl
  | cons p rest ih =>
    by_cases hp : (p.1 == ty) = true
    · rw [List.map_cons, if_pos hp]
      rw [List.find?_cons, List.find?_cons]
      dsimp only
      rw [hp]
      rfl
    · simp only [List.map_cons, if_neg hp]
      rw [List.find?_cons_of_neg _ (by simpa using hp), List.find?_cons_of_neg _ (by simpa using hp)]
      exact ih

/-- A lookup after setAbility returns the new ability when the key was
present. -/
theorem get_ability_setAbility (am : AbilityManager) (ty : String)
    (ab nab : SpecialAbility) (h : am.get_ability ty = some ab) :
    (am.setAbility ty nab).get_ability ty = some nab := by
  simp only [AbilityManager.get_ability, AbilityManager.setAbility] at h ⊢
  rw [setAbility_get, h]
  rfl

/-- C9: ability use is rejected (returns false, total function, no exception
path) when the remaining cooldown is positive or the money is below the cost;
a rejected use leaves the manager (and the game money and health) unchanged; a
successful use immediately sets the remaining cooldown to the full cooldown
value and the game deducts the cost exactly once. -/
theorem C9_ability_use (am : AbilityManager) (ty : String)
    (money health maxHealth : ℤ) (inGameArea : Bool) (mouse : ℚ × ℚ)
    (ab : SpecialAbility) (tp : Option (ℚ × ℚ)) :
    (am.get_ability ty = none → am.use_ability ty money tp = (am, false)) ∧
    (am.get_ability ty = some ab → (0 < ab.current_cooldown ∨ money < ab.cost) →
      (am.use_ability ty money tp = (am, false) ∧
       Game.use_ability money health maxHealth am ty inGameArea mouse = (money, health, am))) ∧
    (am.get_ability ty = some ab → ab.current_cooldown ≤ 0 → ab.cost ≤ money →
      ((am.use_ability ty money tp).2 = true ∧
       (am.use_ability ty money tp).1.get_ability ty
         = some { ab with current_cooldown := ab.cooldown, active := true, time_active := 0 } ∧
       (ty ≠ "airstrike" →
         (Game.use_ability money health maxHealth am ty inGameArea mouse).1 = money - ab.cost) ∧
       (ty = "airstrike" → inGameArea = true →
         (Game.use_ability money health maxHealth am ty inGameArea mouse).1 = money - ab.cost))) := by
  refine ⟨?_, ?_, ?_⟩
  · intro h
    simp [AbilityManager.use_ability, h]
  · intro h hrej
    have hcond : ¬ (ab.is_ready = true) ∨ money < ab.cost := by
      rcases hrej with h1 | h1
      · left
        simp only [SpecialAbility.is_ready, decide_eq_true_eq, not_le]
        exact h1
      · right
        exact h1
    constructor
    · simp only [AbilityManager.use_ability, h]
      rw [if_pos hcond]
    · simp only [Game.use_ability, h]
      rw [if_pos hcond]
  · intro h hcc hcost
    have hready : ab.is_ready = true := by
      simp only [SpecialAbility.is_ready, decide_eq_true_eq]
      exact hcc
    have hcond : ¬ (¬ (ab.is_ready = true) ∨ money < ab.cost) := by
      push_neg
      exact ⟨by simp [hready], hcost⟩
    have huse : ab.use = ({ ab with current_cooldown := ab.cooldown, active := true, time_active := 0 }, true) := by
      unfold SpecialAbility.use
      rw [if_pos hready]
    have husetrue : ∀ tp0, (am.use_ability ty money tp0).2 = true := by
      intro tp0
      simp only [AbilityManager.use_ability, h]
      rw [if_neg hcond]
      simp only [huse]
      split_ifs <;> rfl
    have hget : ∀ tp0, (am.use_ability ty money tp0).1.get_ability ty
        = some { ab with current_cooldown := ab.cooldown, active := true, time_active := 0 } := by
      intro tp0
      simp only [AbilityManager.use_ability, h]
      rw [if_neg hcond]
      simp only [huse]
      split_ifs <;>
        exact get_ability_setAbility am ty ab _ h
    refine ⟨husetrue tp, hget tp, ?_, ?_⟩
    · intro hnon
      simp only [Game.use_ability, h]
      rw [if_neg hcond, if_neg hnon]
      simp only [husetrue none]
      rfl
    · intro hair higa
      simp only [Game.use_ability, h]
      rw [if_neg hcond, if_pos hair, higa]
      simp only [husetrue (some mouse)]
      rfl

/-- The freeze_all ability row as built by AbilityManager.init. -/
def abFreeze : SpecialAbility :=
  { type := "freeze_all", cost := 120, cooldown := 60, current_cooldown := 0, active := false, duration := 3, time_active := 0 }

/-- Witness for C9 at the concrete manager: using freeze_all (cost 120) with
200 money succeeds, sets the cooldown to 60 and deducts exactly 120; with only
50 money the use is rejected with no state or money change. -/
theorem C9_witness :
    AbilityManager.init.get_ability "freeze_all" = some abFreeze ∧
    abFreeze.current_cooldown ≤ 0 ∧
    abFreeze.cost ≤ 200 ∧
    (AbilityManager.init.use_ability "freeze_all" 200 none).2 = true ∧
    (AbilityManager.init.use_ability "freeze_all" 200 none).1.get_ability "freeze_all"
      = some { abFreeze with current_cooldown := abFreeze.cooldown, active := true, time_active := 0 } ∧
    (Game.use_ability 200 10 20 AbilityManager.init "freeze_all" false (0, 0)).1
      = 200 - abFreeze.cost ∧
    (50 : ℤ) < abFreeze.cost ∧
    AbilityManager.init.use_ability "freeze_all" 50 none = (AbilityManager.init, false) ∧
    Game.use_ability 50 10 20 AbilityManager.init "freeze_all" false (0, 0)
      = (50, 10, AbilityManager.init) := by
  have hget : AbilityManager.init.get_ability "freeze_all" = some abFreeze := rfl
  have h := C9_ability_use AbilityManager.init "freeze_all" 200 10 20 false (0, 0) abFreeze none
  have h50 := C9_ability_use AbilityManager.init "freeze_all" 50 10 20 false (0, 0) abFreeze none
  have hcc : abFreeze.current_cooldown ≤ 0 := by norm_num [abFreeze]
  have hcost : abFreeze.cost ≤ 200 := by norm_num [abFreeze]
  have hlow : (50 : ℤ) < abFreeze.cost := by norm_num [abFreeze]
  obtain ⟨ht, hg, hnon, _⟩ := h.2.2 hget hcc hcost
  obtain ⟨hrej1, hrej2⟩ := (h50.2.1) hget (Or.inr hlow)
  exact ⟨hget, hcc, hcost, ht, hg, hnon (by decide), hlow, hrej1, hrej2⟩
